import Mathlib

/-!
Shallow embedding of `src/kart/drive_logic/logic.py` (GoKartAI), the
collision-avoidance drive logic: the arc safety evaluator
(`get_end_of_arc`), the arc selector loop inside `tic`, the speed
planner (`_find_speed_from_distance`) and the traversal-order helper
(`expanding_indices`), together with theorems checking the
specification's claims about them.

Float values are idealised as exact numbers: the geometry/selection
layer works over `ℚ`, and the speed layer (which takes a square root)
over `ℝ`, with a NaN/exception result modelled as `none`.
-/

set_option autoImplicit false

namespace GoKartAI

/-- A 2-D position in the vehicle's local frame (`mathutils.Vector`);
`y` is the forward (longitudinal) coordinate read as `end.y` in `tic`. -/
structure Vec2 where
  x : ℚ
  y : ℚ
  deriving DecidableEq, Repr

/-- Squared Euclidean distance between two positions. -/
def dist2 (p q : Vec2) : ℚ :=
  (p.x - q.x) * (p.x - q.x) + (p.y - q.y) * (p.y - q.y)

/-- Modelled from the spec: one candidate arc of the catalog built by
`kart.drive_logic.turn_table` (module absent from `src/`).  Per the spec
an arc carries a turn radius and an ordered sequence of local-frame 2-D
positions, ordered by increasing distance from the vehicle; `logic.py`
reads only `arc.positions` (and the spec's outputs refer to the arc's
turn radius). -/
structure Arc where
  radius : ℚ
  positions : List Vec2
  deriving DecidableEq, Repr

/-- `scipy.spatial.kdtree.KDTree.query_ball_point(pos, r)` over the
point cloud the tree was built from: all cloud points whose Euclidean
distance to `pos` is at most `r` (a closed ball; empty when `r < 0`).
`logic.py` only inspects the length of the returned list.  Stated with
squared distances to stay in `ℚ`: for `0 ≤ r`, `dist ≤ r ↔ dist² ≤ r²`. -/
def query_ball_point (cloud : List Vec2) (pos : Vec2) (r : ℚ) : List Vec2 :=
  cloud.filter (fun q => decide (0 ≤ r ∧ dist2 q pos ≤ r * r))

/-- The loop of `SimpleColAvoidLogic.get_end_of_arc`: walk the arc's
positions in order; a position with no impinging cloud point within the
safety margin becomes the new last safe point; the first impinging
position breaks the loop.  `last` is the `last_safe_point` accumulator
(initially `None`). -/
def endOfArcLoop (cloud : List Vec2) (margin : ℚ) :
    List Vec2 → Option Vec2 → Option Vec2
  | [], last => last
  | pos :: rest, last =>
    if (query_ball_point cloud pos margin).length = 0 then
      endOfArcLoop cloud margin rest (some pos)
    else
      last

/-- `SimpleColAvoidLogic.get_end_of_arc` (logic.py:107-125): the last
viable relative position of an arc, or `none` when the very first
position is already unsafe.  The `SAFE_DISTANCE` constant
(`kart.drive_logic.const`, absent from `src/`) is the safety-margin
parameter `margin`; the `KDTree` handle from `DriveData` is the cloud. -/
def get_end_of_arc (cloud : List Vec2) (margin : ℚ) (arc : Arc) : Option Vec2 :=
  endOfArcLoop cloud margin arc.positions none

/-- The arc-scan loop of `SimpleColAvoidLogic.tic` (logic.py:80-85):
fold over the catalog in list order carrying `best_arc` (initially
`None`) and `best_distance` (initially `0`); an arc whose safe end
exists and has `end.y > best_distance` becomes the new best. -/
def selectLoop (cloud : List Vec2) (margin : ℚ) :
    List Arc → Option Arc → ℚ → Option Arc × ℚ
  | [], best, best_distance => (best, best_distance)
  | arc :: rest, best, best_distance =>
    match get_end_of_arc cloud margin arc with
    | some e =>
      if e.y > best_distance then
        selectLoop cloud margin rest (some arc) e.y
      else
        selectLoop cloud margin rest best best_distance
    | none => selectLoop cloud margin rest best best_distance

/-- `SimpleColAvoidLogic._find_speed_from_distance` (logic.py:94-105):
`deceleration_time = sqrt(distance * 2 / DECELERATION_RATE)`;
`speed = deceleration_time * DECELERATION_RATE`.  `DECELERATION_RATE`
(`kart.const.phys_const`, absent from `src/`) is the parameter `decel`.
A zero `decel` raises `ZeroDivisionError` in Python and a negative
radicand makes `numpy.sqrt` return NaN; both are modelled as `none`. -/
noncomputable def find_speed_from_distance (decel : ℚ) (distance : ℚ) :
    Option ℝ :=
  if decel = 0 then none
  else if distance * 2 / decel < 0 then none
  else some (Real.sqrt ((distance * 2 / decel : ℚ) : ℝ) * (decel : ℝ))

/-- The mutable fields of a `SimpleColAvoidLogic` instance:
`last_radius_index`, `_current_turn_radius` and `_current_speed`
(the latter an idealised float that may be NaN, hence `Option ℝ`). -/
structure LogicState where
  last_radius_index : ℤ
  current_turn_radius : ℚ
  current_speed : Option ℝ

/-- `SimpleColAvoidLogic.__init__`: `last_radius_index` is
`int(len(turn_arcs) / 2)`, radius and speed start at `0`. -/
def initState (arcs : List Arc) : LogicState where
  last_radius_index := (arcs.length / 2 : ℕ)
  current_turn_radius := 0
  current_speed := some 0

/-- `SimpleColAvoidLogic.tic` (logic.py:77-92) over catalog `arcs`
(the global `turn_arcs`) and obstacle cloud `cloud`: run the arc scan;
if no best arc was found set radius and speed to `0`; otherwise set the
speed from `best_distance - SAFE_DISTANCE` (the turn radius field is
not assigned in this branch, exactly as in the source). -/
noncomputable def tic (arcs : List Arc) (cloud : List Vec2)
    (margin decel : ℚ) (s : LogicState) : LogicState :=
  let r := selectLoop cloud margin arcs none 0
  match r.1 with
  | none => { s with current_turn_radius := 0, current_speed := some 0 }
  | some _ =>
    { s with current_speed := find_speed_from_distance decel (r.2 - margin) }

/-- Property `SimpleColAvoidLogic.target_turn_radius` (logic.py:127-129). -/
def target_turn_radius (s : LogicState) : ℚ :=
  s.current_turn_radius

/-- Property `SimpleColAvoidLogic.target_speed` (logic.py:131-133). -/
def target_speed (s : LogicState) : Option ℝ :=
  s.current_speed

/-- The index update at the end of each iteration of the
`expanding_indices` loop: `i = i * -1 - 1` when `i >= 0`, else
`i = i * -1 + 1`. -/
def nextExpand (i : ℤ) : ℤ :=
  if 0 ≤ i then i * -1 - 1 else i * -1 + 1

/-- The `while True` loop of `expanding_indices` (logic.py:208-223) with
explicit fuel: at offset `i`, yield `i + start_index` when
`lower_bound ≤ i < upper_bound`, otherwise stop when
`|i| > max |lower_bound| |upper_bound|`; then step `i` by `nextExpand`. -/
def expandingIndicesAux (start_index lower_bound upper_bound : ℤ) :
    ℕ → ℤ → List ℤ
  | 0, _ => []
  | fuel + 1, i =>
    if lower_bound ≤ i ∧ i < upper_bound then
      (i + start_index) ::
        expandingIndicesAux start_index lower_bound upper_bound fuel
          (nextExpand i)
    else if |i| > max |lower_bound| |upper_bound| then
      []
    else
      expandingIndicesAux start_index lower_bound upper_bound fuel
        (nextExpand i)

/-- `expanding_indices` (logic.py:208-223): the full finite sequence the
Python generator yields.  The offset sequence is `0, -1, 2, -3, 4, …`
(the magnitude grows by one every iteration, the sign alternates), and
with `B = max |lower_bound| |upper_bound|` the loop breaks at the first
offset of magnitude at least `B + 1`, which lies outside the bounds and
is reached within `B + 2` iterations, so `2 * B + 3` iterations of fuel
always cover the whole run. -/
def expanding_indices (start_index lower_bound upper_bound : ℤ) : List ℤ :=
  expandingIndicesAux start_index lower_bound upper_bound
    (2 * max lower_bound.natAbs upper_bound.natAbs + 3) 0

example : expanding_indices 5 (-3) 3 = [5, 4, 7, 2] := by decide

example :
    get_end_of_arc [⟨5, 5⟩] 1 ⟨0, [⟨0, 1⟩, ⟨0, 2⟩]⟩ = some ⟨0, 2⟩ := by
  norm_num [get_end_of_arc, endOfArcLoop, query_ball_point, dist2, List.filter]

example :
    get_end_of_arc [⟨0, 1⟩] 1 ⟨0, [⟨0, 1⟩, ⟨0, 2⟩]⟩ = none := by
  norm_num [get_end_of_arc, endOfArcLoop, query_ball_point, dist2, List.filter]

example :
    selectLoop [] 1 [⟨7, [⟨0, 3⟩]⟩] none 0 = (some ⟨7, [⟨0, 3⟩]⟩, 3) := by
  decide

/-! ### General lemmas about the arc-scan loop -/

/-- The running `best_distance` never decreases along the scan. -/
lemma selectLoop_snd_le (cloud : List Vec2) (margin : ℚ) :
    ∀ (l : List Arc) (best : Option Arc) (bd : ℚ),
      bd ≤ (selectLoop cloud margin l best bd).2 := by
  intro l
  induction l with
  | nil => intro best bd; exact le_refl bd
  | cons a rest ih =>
    intro best bd
    rcases h : get_end_of_arc cloud margin a with _ | e
    · simpa only [selectLoop, h] using ih best bd
    · by_cases hy : e.y > bd
      · simp only [selectLoop, h, hy, if_true]
        exact le_trans (le_of_lt hy) (ih (some a) e.y)
      · simpa only [selectLoop, h, hy, if_false] using ih best bd

/-- The final `best_distance` dominates the safe end height of every
arc in the scanned list. -/
lemma selectLoop_snd_max (cloud : List Vec2) (margin : ℚ) :
    ∀ (l : List Arc) (best : Option Arc) (bd : ℚ) (a : Arc) (e : Vec2),
      a ∈ l → get_end_of_arc cloud margin a = some e →
      e.y ≤ (selectLoop cloud margin l best bd).2 := by
  intro l
  induction l with
  | nil => intro best bd a e ha; exact absurd ha (List.not_mem_nil a)
  | cons a' rest ih =>
    intro best bd a e ha he
    rcases List.mem_cons.mp ha with rfl | hmem
    · by_cases hy : e.y > bd
      · simp only [selectLoop, he, hy, if_true]
        exact selectLoop_snd_le cloud margin rest (some a) e.y
      · simp only [selectLoop, he, hy, if_false]
        exact le_trans (not_lt.mp hy) (selectLoop_snd_le cloud margin rest best bd)
    · rcases h' : get_end_of_arc cloud margin a' with _ | e'
      · simpa only [selectLoop, h'] using ih best bd a e hmem he
      · by_cases hy : e'.y > bd
        · simpa only [selectLoop, h', hy, if_true] using
            ih (some a') e'.y a e hmem he
        · simpa only [selectLoop, h', hy, if_false] using ih best bd a e hmem he

/-- If the incoming `best` arc (when present) has a safe end at height
`best_distance`, so does the arc the scan finally settles on. -/
lemma selectLoop_fst_spec (cloud : List Vec2) (margin : ℚ) :
    ∀ (l : List Arc) (best : Option Arc) (bd : ℚ),
      (∀ b, best = some b →
        ∃ e, get_end_of_arc cloud margin b = some e ∧ e.y = bd) →
      ∀ a, (selectLoop cloud margin l best bd).1 = some a →
        ∃ e, get_end_of_arc cloud margin a = some e ∧
          e.y = (selectLoop cloud margin l best bd).2 := by
  intro l
  induction l with
  | nil => intro best bd hinv a ha; exact hinv a ha
  | cons a' rest ih =>
    intro best bd hinv a ha
    rcases h' : get_end_of_arc cloud margin a' with _ | e'
    · rw [show selectLoop cloud margin (a' :: rest) best bd
          = selectLoop cloud margin rest best bd by
            simp only [selectLoop, h']] at ha ⊢
      exact ih best bd hinv a ha
    · by_cases hy : e'.y > bd
      · rw [show selectLoop cloud margin (a' :: rest) best bd
            = selectLoop cloud margin rest (some a') e'.y by
              simp only [selectLoop, h', hy, if_true]] at ha ⊢
        refine ih (some a') e'.y ?_ a ha
        intro b hb
        obtain rfl : a' = b := Option.some.injEq a' b ▸ hb.symm ▸ rfl
        exact ⟨e', h', rfl⟩
      · rw [show selectLoop cloud margin (a' :: rest) best bd
            = selectLoop cloud margin rest best bd by
              simp only [selectLoop, h', hy, if_false]] at ha ⊢
        exact ih best bd hinv a ha

/-- Starting from `best = None`, a scan in which every safe end has
non-positive height (or no arc has one) finds no best arc and leaves
`best_distance` untouched. -/
lemma selectLoop_no_viable (cloud : List Vec2) (margin : ℚ) :
    ∀ (l : List Arc) (bd : ℚ), 0 ≤ bd →
      (∀ a ∈ l, ∀ e, get_end_of_arc cloud margin a = some e → e.y ≤ 0) →
      selectLoop cloud margin l none bd = (none, bd) := by
  intro l
  induction l with
  | nil => intro bd _ _; rfl
  | cons a' rest ih =>
    intro bd hbd h
    rcases h' : get_end_of_arc cloud margin a' with _ | e'
    · rw [show selectLoop cloud margin (a' :: rest) none bd
          = selectLoop cloud margin rest none bd by
            simp only [selectLoop, h']]
      exact ih bd hbd fun a ha => h a (List.mem_cons_of_mem a' ha)
    · have hle : e'.y ≤ 0 := h a' (List.mem_cons_self a' rest) e' h'
      have hy : ¬ e'.y > bd := not_lt.mpr (le_trans hle hbd)
      rw [show selectLoop cloud margin (a' :: rest) none bd
          = selectLoop cloud margin rest none bd by
            simp only [selectLoop, h', hy, if_false]]
      exact ih bd hbd fun a ha => h a (List.mem_cons_of_mem a' ha)

/-- Walking an all-safe position list updates the last safe point to
the last element of the list (keeping the accumulator on an empty
list). -/
lemma endOfArcLoop_all_safe (cloud : List Vec2) (margin : ℚ) :
    ∀ (l : List Vec2) (acc : Option Vec2),
      (∀ p ∈ l, (query_ball_point cloud p margin).length = 0) →
      endOfArcLoop cloud margin l acc = l.getLast?.elim acc some := by
  intro l
  induction l with
  | nil => intro acc _; rfl
  | cons p rest ih =>
    intro acc hsafe
    have hp : (query_ball_point cloud p margin).length = 0 :=
      hsafe p (List.mem_cons_self p rest)
    rw [show endOfArcLoop cloud margin (p :: rest) acc
        = endOfArcLoop cloud margin rest (some p) by
          simp only [endOfArcLoop, hp, if_true]]
    rw [ih (some p) fun q hq => hsafe q (List.mem_cons_of_mem p hq)]
    cases rest with
    | nil => rfl
    | cons q t => rw [List.getLast?_cons_cons]; rfl

/-! ### Claim theorems -/

/-- C6: whenever the arc scan of `tic` settles on an arc, that arc has a
safe end whose forward coordinate is at least the forward coordinate of
the safe end of every arc in the catalog (maximality of the chosen safe
forward distance). -/
theorem selector_chosen_distance_maximal (arcs : List Arc)
    (cloud : List Vec2) (margin : ℚ) (a : Arc)
    (h : (selectLoop cloud margin arcs none 0).1 = some a) :
    ∃ e, get_end_of_arc cloud margin a = some e ∧
      ∀ a' ∈ arcs, ∀ e', get_end_of_arc cloud margin a' = some e' →
        e'.y ≤ e.y := by
  obtain ⟨e, he, hey⟩ :=
    selectLoop_fst_spec cloud margin arcs none 0
      (fun b hb => Option.noConfusion hb) a h
  refine ⟨e, he, fun a' ha' e' he' => ?_⟩
  rw [hey]
  exact selectLoop_snd_max cloud margin arcs none 0 a' e' ha' he'

/-- C6 witness: a one-arc catalog over an empty cloud; the scan chooses
the arc and its end height `3` dominates every safe end. -/
theorem selector_chosen_distance_maximal_witness :
    (selectLoop [] 1 [⟨7, [⟨0, 3⟩]⟩] none 0).1 = some ⟨7, [⟨0, 3⟩]⟩ ∧
    ∃ e, get_end_of_arc [] 1 ⟨7, [⟨0, 3⟩]⟩ = some e ∧
      ∀ a' ∈ [(⟨7, [⟨0, 3⟩]⟩ : Arc)], ∀ e',
        get_end_of_arc [] 1 a' = some e' → e'.y ≤ e.y :=
  ⟨by decide,
    selector_chosen_distance_maximal [⟨7, [⟨0, 3⟩]⟩] [] 1 ⟨7, [⟨0, 3⟩]⟩
      (by decide)⟩

/-- C7: when the evaluator returns no safe point for every arc of the
catalog, `tic` leaves the controller in the safe-stop state: target
speed `0` and target turn radius `0`. -/
theorem tic_all_unsafe_safe_stop (arcs : List Arc) (cloud : List Vec2)
    (margin decel : ℚ) (s : LogicState)
    (h : ∀ a ∈ arcs, get_end_of_arc cloud margin a = none) :
    target_speed (tic arcs cloud margin decel s) = some 0 ∧
    target_turn_radius (tic arcs cloud margin decel s) = 0 := by
  have hsel : selectLoop cloud margin arcs none 0 = (none, 0) :=
    selectLoop_no_viable cloud margin arcs 0 (le_refl 0)
      (fun a ha e he => absurd he (by rw [h a ha]; exact Option.noConfusion))
  constructor <;>
    simp only [tic, hsel, target_speed, target_turn_radius]

/-- C7 witness: a catalog whose single arc has an empty position list,
so its evaluation returns no safe point; the outputs are `0` and `0`. -/
theorem tic_all_unsafe_safe_stop_witness :
    target_speed (tic [⟨5, []⟩] [] 1 2 (initState [⟨5, []⟩])) = some 0 ∧
    target_turn_radius (tic [⟨5, []⟩] [] 1 2 (initState [⟨5, []⟩])) = 0 :=
  tic_all_unsafe_safe_stop [⟨5, []⟩] [] 1 2 (initState [⟨5, []⟩])
    (by decide)

/-- C8: on a non-empty arc all of whose positions are outside the
safety margin of every cloud point, the evaluator returns the arc's
last (farthest) position. -/
theorem evaluator_all_safe_returns_last (cloud : List Vec2) (margin : ℚ)
    (arc : Arc) (hne : arc.positions ≠ [])
    (hsafe : ∀ p ∈ arc.positions,
      (query_ball_point cloud p margin).length = 0) :
    get_end_of_arc cloud margin arc = some (arc.positions.getLast hne) := by
  rw [get_end_of_arc, endOfArcLoop_all_safe cloud margin arc.positions none hsafe,
    List.getLast?_eq_getLast arc.positions hne]
  rfl

/-- C8 witness: a two-position arc over an empty cloud; the evaluator
returns the second (farthest) position. -/
theorem evaluator_all_safe_returns_last_witness :
    (⟨0, [⟨0, 1⟩, ⟨0, 2⟩]⟩ : Arc).positions ≠ [] ∧
    (∀ p ∈ (⟨0, [⟨0, 1⟩, ⟨0, 2⟩]⟩ : Arc).positions,
      (query_ball_point [] p 1).length = 0) ∧
    get_end_of_arc [] 1 ⟨0, [⟨0, 1⟩, ⟨0, 2⟩]⟩
      = some ((⟨0, [⟨0, 1⟩, ⟨0, 2⟩]⟩ : Arc).positions.getLast (by decide)) :=
  ⟨by decide, by decide,
    evaluator_all_safe_returns_last [] 1 ⟨0, [⟨0, 1⟩, ⟨0, 2⟩]⟩ (by decide)
      (by decide)⟩

/-- C9: when the very first position of an arc already has a cloud
point within the safety margin, the evaluator returns no safe point,
whatever the later positions look like. -/
theorem evaluator_first_unsafe_none (cloud : List Vec2) (margin : ℚ)
    (arc : Arc) (p : Vec2) (rest : List Vec2)
    (hp : arc.positions = p :: rest)
    (hblocked : (query_ball_point cloud p margin).length ≠ 0) :
    get_end_of_arc cloud margin arc = none := by
  rw [get_end_of_arc, hp]
  simp only [endOfArcLoop, hblocked, if_false]

/-- C9 witness: the arc's first position coincides with a cloud point,
so it is unsafe; the evaluator ignores the safe later position and
returns no safe point. -/
theorem evaluator_first_unsafe_none_witness :
    (⟨0, [⟨0, 0⟩, ⟨0, 9⟩]⟩ : Arc).positions = ⟨0, 0⟩ :: [⟨0, 9⟩] ∧
    (query_ball_point [⟨0, 0⟩] ⟨0, 0⟩ 1).length ≠ 0 ∧
    get_end_of_arc [⟨0, 0⟩] 1 ⟨0, [⟨0, 0⟩, ⟨0, 9⟩]⟩ = none :=
  ⟨rfl, by norm_num [query_ball_point, dist2, List.filter],
    evaluator_first_unsafe_none [⟨0, 0⟩] 1 ⟨0, [⟨0, 0⟩, ⟨0, 9⟩]⟩ ⟨0, 0⟩
      [⟨0, 9⟩] rfl (by norm_num [query_ball_point, dist2, List.filter])⟩

/-- C10: when some arc has a safe point but every safe point of every
arc has forward coordinate `≤ 0`, `tic` still emits the safe-stop state
(speed `0`, turn radius `0`): such arcs are treated exactly like arcs
with no safe point, because the scan only accepts ends with
`end.y > best_distance` and `best_distance` starts at `0`. -/
theorem tic_nonpositive_ends_safe_stop (arcs : List Arc)
    (cloud : List Vec2) (margin decel : ℚ) (s : LogicState)
    (_hsome : ∃ a ∈ arcs, ∃ e, get_end_of_arc cloud margin a = some e)
    (h : ∀ a ∈ arcs, ∀ e, get_end_of_arc cloud margin a = some e →
      e.y ≤ 0) :
    target_speed (tic arcs cloud margin decel s) = some 0 ∧
    target_turn_radius (tic arcs cloud margin decel s) = 0 := by
  have hsel : selectLoop cloud margin arcs none 0 = (none, 0) :=
    selectLoop_no_viable cloud margin arcs 0 (le_refl 0) h
  constructor <;>
    simp only [tic, hsel, target_speed, target_turn_radius]

/-- C10 witness: one arc whose only (safe) position sits behind the
vehicle at `y = -1`; the safe point exists but the outputs are the
safe-stop state. -/
theorem tic_nonpositive_ends_safe_stop_witness :
    (∃ a ∈ [(⟨5, [⟨0, -1⟩]⟩ : Arc)], ∃ e,
      get_end_of_arc [] 1 a = some e) ∧
    target_speed (tic [⟨5, [⟨0, -1⟩]⟩] [] 1 2
      (initState [⟨5, [⟨0, -1⟩]⟩])) = some 0 ∧
    target_turn_radius (tic [⟨5, [⟨0, -1⟩]⟩] [] 1 2
      (initState [⟨5, [⟨0, -1⟩]⟩])) = 0 :=
  ⟨⟨⟨5, [⟨0, -1⟩]⟩, List.mem_cons_self _ _, ⟨0, -1⟩, by decide⟩,
    tic_nonpositive_ends_safe_stop [⟨5, [⟨0, -1⟩]⟩] [] 1 2
      (initState [⟨5, [⟨0, -1⟩]⟩])
      ⟨⟨5, [⟨0, -1⟩]⟩, List.mem_cons_self _ _, ⟨0, -1⟩, by decide⟩
      (by
        intro a ha e he
        simp only [List.mem_cons, List.not_mem_nil, or_false] at ha
        subst ha
        rw [show get_end_of_arc [] 1 (⟨5, [⟨0, -1⟩]⟩ : Arc)
            = some ⟨0, -1⟩ from by decide] at he
        cases he
        norm_num)⟩

/-- C5 counterexample: at the negative free distance `-1` the speed
planner returns NaN (modelled `none`), so no output speed satisfying
`speed² = 2 · deceleration_rate · max(free_distance, 0)` exists there:
the claimed identity fails for negative free distances. -/
theorem find_speed_negative_distance_no_speed :
    ¬ ∃ s : ℝ, find_speed_from_distance 2 (-1) = some s ∧
      s ^ 2 = 2 * (2 : ℝ) * max ((-1 : ℚ) : ℝ) 0 := by
  rintro ⟨s, hs, -⟩
  rw [show find_speed_from_distance 2 (-1) = none from by
    norm_num [find_speed_from_distance]] at hs
  exact Option.noConfusion hs

/-- C5 (amended): restricted to non-negative free distances, the speed
planner's output exists, is monotone non-decreasing in the free
distance, and satisfies `speed² = 2 · deceleration_rate ·
max(free_distance, 0)` exactly. -/
theorem find_speed_monotone_sq (decel d₁ d₂ : ℚ) (hdec : 0 < decel)
    (h₁ : 0 ≤ d₁) (h₁₂ : d₁ ≤ d₂) :
    ∃ s₁ s₂ : ℝ, find_speed_from_distance decel d₁ = some s₁ ∧
      find_speed_from_distance decel d₂ = some s₂ ∧ s₁ ≤ s₂ ∧
      s₁ ^ 2 = 2 * (decel : ℝ) * max (d₁ : ℝ) 0 ∧
      s₂ ^ 2 = 2 * (decel : ℝ) * max (d₂ : ℝ) 0 := by
  have hd0 : decel ≠ 0 := ne_of_gt hdec
  have h₂ : 0 ≤ d₂ := le_trans h₁ h₁₂
  have hx₁ : 0 ≤ d₁ * 2 / decel :=
    div_nonneg (by linarith) (le_of_lt hdec)
  have hx₂ : 0 ≤ d₂ * 2 / decel :=
    div_nonneg (by linarith) (le_of_lt hdec)
  have hsq : ∀ d : ℚ, 0 ≤ d →
      (Real.sqrt ((d * 2 / decel : ℚ) : ℝ) * (decel : ℝ)) ^ 2
        = 2 * (decel : ℝ) * max (d : ℝ) 0 := by
    intro d hd
    have hxd : 0 ≤ d * 2 / decel := div_nonneg (by linarith) (le_of_lt hdec)
    have hcast : (0 : ℝ) ≤ ((d * 2 / decel : ℚ) : ℝ) := by exact_mod_cast hxd
    rw [mul_pow, Real.sq_sqrt hcast, max_eq_left (by exact_mod_cast hd)]
    push_cast
    field_simp
    ring
  refine ⟨Real.sqrt ((d₁ * 2 / decel : ℚ) : ℝ) * (decel : ℝ),
    Real.sqrt ((d₂ * 2 / decel : ℚ) : ℝ) * (decel : ℝ), ?_, ?_, ?_,
    hsq d₁ h₁, hsq d₂ h₂⟩
  · rw [find_speed_from_distance, if_neg hd0, if_neg (not_lt.mpr hx₁)]
  · rw [find_speed_from_distance, if_neg hd0, if_neg (not_lt.mpr hx₂)]
  · have hmono : ((d₁ * 2 / decel : ℚ) : ℝ) ≤ ((d₂ * 2 / decel : ℚ) : ℝ) := by
      have : d₁ * 2 / decel ≤ d₂ * 2 / decel :=
        (div_le_div_iff_of_pos_right hdec).mpr (by linarith)
      exact_mod_cast this
    exact mul_le_mul_of_nonneg_right (Real.sqrt_le_sqrt hmono)
      (by exact_mod_cast le_of_lt hdec)

/-- C5 witness: `deceleration_rate = 2`, free distances `1 ≤ 4`; the
amended theorem applies and produces both speeds. -/
theorem find_speed_monotone_sq_witness :
    (0 : ℚ) < 2 ∧ (0 : ℚ) ≤ 1 ∧ (1 : ℚ) ≤ 4 ∧
    ∃ s₁ s₂ : ℝ, find_speed_from_distance 2 1 = some s₁ ∧
      find_speed_from_distance 2 4 = some s₂ ∧ s₁ ≤ s₂ ∧
      s₁ ^ 2 = 2 * ((2 : ℚ) : ℝ) * max ((1 : ℚ) : ℝ) 0 ∧
      s₂ ^ 2 = 2 * ((2 : ℚ) : ℝ) * max ((4 : ℚ) : ℝ) 0 :=
  ⟨by norm_num, by norm_num, by norm_num,
    find_speed_monotone_sq 2 1 4 (by norm_num) (by norm_num) (by norm_num)⟩

/-- C4 counterexample: the helper called with `start_index = 5`,
`lower_bound = -3`, `upper_bound = 3` never yields `6` (nor `8`), so it
does not cover the claimed set `{2,…,8}`, nor even all in-bound
indices one step at a time. -/
theorem expanding_indices_not_claimed_set :
    (6 : ℤ) ∉ expanding_indices 5 (-3) 3 ∧
    (8 : ℤ) ∉ expanding_indices 5 (-3) 3 := by
  decide

/-- C4 (amended): `expanding_indices 5 (-3) 3` yields exactly
`[5, 4, 7, 2]`: the upper bound is exclusive, and the offset sequence
is `0, -1, 2, -3, 4, …` — the magnitude grows by one at every step
while the sign alternates, so every other offset on each side of the
start is skipped. -/
theorem expanding_indices_5_m3_3 :
    expanding_indices 5 (-3) 3 = [5, 4, 7, 2] := by
  decide

/-- C1 code-bug evidence: a one-arc catalog (turn radius `5`, one safe
position at `(0, 3)`) over an empty cloud.  The scan chooses the arc —
the "viable arc found" state — yet after `tic` the cached turn radius
is still the initial `0`, not the chosen arc's radius `5`: the viable
branch of `tic` never assigns `_current_turn_radius` (and never reads
`best_arc` again). -/
theorem tic_viable_turn_radius_not_assigned :
    (selectLoop [] 1 [⟨5, [⟨0, 3⟩]⟩] none 0).1 = some ⟨5, [⟨0, 3⟩]⟩ ∧
    (⟨5, [⟨0, 3⟩]⟩ : Arc).radius = 5 ∧
    target_turn_radius (tic [⟨5, [⟨0, 3⟩]⟩] [] 1 2
      (initState [⟨5, [⟨0, 3⟩]⟩])) = 0 := by
  refine ⟨by decide, rfl, ?_⟩
  rw [show target_turn_radius (tic [⟨5, [⟨0, 3⟩]⟩] [] 1 2
      (initState [⟨5, [⟨0, 3⟩]⟩]))
    = (initState [(⟨5, [⟨0, 3⟩]⟩ : Arc)]).current_turn_radius from by
      simp only [tic, target_turn_radius,
        show selectLoop [] 1 [⟨5, [⟨0, 3⟩]⟩] none 0
          = (some ⟨5, [⟨0, 3⟩]⟩, 3) from by decide]]
  rfl

/-- C2 code-bug evidence: a viable arc whose farthest safe point is at
forward distance `1` with safety margin `2`, so the usable free
distance is `1 - 2 = -1 < 0`.  No clamp exists in the source:
`numpy.sqrt` of the negative radicand yields NaN (modelled `none`), so
`target_speed` is NaN rather than the claimed `0.0`. -/
theorem tic_negative_free_space_nan :
    (selectLoop [] 2 [⟨5, [⟨0, 1⟩]⟩] none 0) = (some ⟨5, [⟨0, 1⟩]⟩, 1) ∧
    target_speed (tic [⟨5, [⟨0, 1⟩]⟩] [] 2 2
      (initState [⟨5, [⟨0, 1⟩]⟩])) = none := by
  refine ⟨by decide, ?_⟩
  rw [show target_speed (tic [⟨5, [⟨0, 1⟩]⟩] [] 2 2
      (initState [⟨5, [⟨0, 1⟩]⟩]))
    = find_speed_from_distance 2 (1 - 2) from by
      simp only [tic, target_speed,
        show selectLoop [] 2 [⟨5, [⟨0, 1⟩]⟩] none 0
          = (some ⟨5, [⟨0, 1⟩]⟩, 1) from by decide]]
  norm_num [find_speed_from_distance]

/-- C3 code-bug evidence: a five-arc catalog over an empty cloud where
arcs 0 and 2 tie at safe forward distance `10` and the traversal seed
`last_radius_index` is `2`.  The scan of `tic` walks the catalog in
plain index order and keeps arc 0 on the tie, even though the
traversal-order helper seeded at index 2 (origin-relative bounds
`-2` and `3` for the five indices) would visit index 2 first — and,
moreover, that helper's order `[2, 1, 4]` skips indices 0 and 3
entirely, so it is used nowhere in `tic`. -/
theorem tic_scan_order_not_expanding :
    (initState [⟨0, [⟨0, 10⟩]⟩, ⟨1, [⟨0, 1⟩]⟩, ⟨2, [⟨0, 10⟩]⟩,
      ⟨3, [⟨0, 1⟩]⟩, ⟨4, [⟨0, 1⟩]⟩]).last_radius_index = 2 ∧
    get_end_of_arc [] 1 ⟨0, [⟨0, 10⟩]⟩ = some ⟨0, 10⟩ ∧
    get_end_of_arc [] 1 ⟨2, [⟨0, 10⟩]⟩ = some ⟨0, 10⟩ ∧
    (selectLoop [] 1 [⟨0, [⟨0, 10⟩]⟩, ⟨1, [⟨0, 1⟩]⟩, ⟨2, [⟨0, 10⟩]⟩,
      ⟨3, [⟨0, 1⟩]⟩, ⟨4, [⟨0, 1⟩]⟩] none 0).1 = some ⟨0, [⟨0, 10⟩]⟩ ∧
    expanding_indices 2 (-2) 3 = [2, 1, 4] := by
  refine ⟨rfl, by decide, by decide, by decide, by decide⟩

end GoKartAI
